import Mathlib

/-!
Shallow embedding of the derived-metric / height-normalization pipeline of
the `texas-population-peaks` repository (two scripts: `visualize_texas.py`,
the basic variant, and `texas_peaks.py`, the enhanced artistic variant).

Pandas/numpy cell values are modelled by `Value` (a numeric rational, a NaN,
or a non-numeric string); float results of arithmetic by `FVal`, which adds
the two infinities.  Machine floats are modelled by exact rationals: the
claims under study are about exact formulas, selection logic and ranges,
not rounding.  Operations that raise a Python exception return `Option`
(`none` = uncaught exception).
-/

/-- A raw cell of a loaded attribute table: numeric, missing (NaN), or a
non-numeric string. -/
inductive Value where
  | num (q : ℚ)
  | nan
  | str (s : String)
deriving DecidableEq, Repr

/-- A float-like value as produced by pandas/numpy arithmetic:
finite rational, NaN, +inf or -inf. -/
inductive FVal where
  | num (q : ℚ)
  | nan
  | inf
  | ninf
deriving DecidableEq, Repr

namespace FVal

/-- IEEE-style division as numpy/pandas performs it on float columns:
x/0 is ±inf for x ≠ 0, 0/0 is NaN, and NaN propagates. -/
def fdiv : FVal → FVal → FVal
  | num a, num b =>
      if b = 0 then (if a = 0 then nan else if a > 0 then inf else ninf)
      else num (a / b)
  | nan, _ => nan
  | _, nan => nan
  | inf, num b => if b < 0 then ninf else inf
  | ninf, num b => if b < 0 then inf else ninf
  | num _, inf => num 0
  | num _, ninf => num 0
  | inf, inf => nan
  | inf, ninf => nan
  | ninf, inf => nan
  | ninf, ninf => nan

/-- Pandas `Series.fillna(0)`: NaN becomes 0, everything else is unchanged. -/
def fillna0 : FVal → FVal
  | nan => num 0
  | v => v

/-- Pandas `Series.replace([np.inf, -np.inf], 0)`: the infinities become 0. -/
def replaceInf0 : FVal → FVal
  | inf => num 0
  | ninf => num 0
  | v => v

end FVal

/-- Conversion `pd.to_numeric(col, errors='coerce')` on one cell: a non-numeric
string coerces to NaN. -/
def toNumericCoerce : Value → FVal
  | .num q => .num q
  | .nan => .nan
  | .str _ => .nan

/-- Conversion `pd.to_numeric(col)` with the default `errors='raise'` on one cell
(also the behaviour of using a raw cell as a float operand): a
non-numeric string raises, i.e. yields `none`. -/
def toNumericRaise : Value → Option FVal
  | .num q => some (.num q)
  | .nan => some .nan
  | .str _ => none

/-- A column of the attribute table. -/
abbrev Col := List Value

/-- The attribute table: a row count and named columns (each column is
expected to hold `nrows` cells). -/
structure Table where
  nrows : ℕ
  cols : List (String × Col)
deriving DecidableEq, Repr

namespace Table

/-- Membership test `name in gdf.columns` — exact, case-sensitive name match. -/
def hasCol (t : Table) (name : String) : Bool :=
  t.cols.any (fun c => c.1 = name)

/-- Column access `gdf[name]` (empty column if absent; the scripts only read columns
they have found present). -/
def getCol (t : Table) (name : String) : Col :=
  match t.cols.find? (fun c => c.1 = name) with
  | some c => c.2
  | none => []

end Table

/-- Check `pd.api.types.is_numeric_dtype`: a pandas column has numeric dtype
iff no cell is a non-numeric string (NaNs live in float columns). -/
def isNumericDtype (c : Col) : Bool :=
  c.all (fun v => match v with | .str _ => false | _ => true)

/-- Pandas `Series.sum()` of a column: pandas skips NaN (and we only apply this
to numeric-dtype columns). -/
def colSum (c : Col) : ℚ :=
  (c.map (fun v => match v with | .num q => q | _ => 0)).sum

namespace VT
/-! Embedding of `visualize_texas.py` (basic variant). -/

/-- The list `potential_pop_cols = ['POP', 'POP100', 'POP20']`. -/
def potentialPopCols : List String := ["POP", "POP100", "POP20"]

/-- The list `potential_area_cols = ['ALAND']`. -/
def potentialAreaCols : List String := ["ALAND"]

/-- First population candidate present in the table
(`for col in potential_pop_cols: if col in gdf.columns: ... break`). -/
def populationCol (t : Table) : Option String :=
  potentialPopCols.find? (fun c => t.hasCol c)

/-- First area candidate that is present, of numeric dtype, and has
positive sum (`if col in gdf.columns and is_numeric_dtype and sum > 0`). -/
def areaCol (t : Table) : Option String :=
  potentialAreaCols.find?
    (fun c => t.hasCol c && isNumericDtype (t.getCol c) && 0 < colSum (t.getCol c))

end VT

namespace TP
/-! Embedding of `texas_peaks.py` (enhanced variant). -/

/-- The selection `pop_col = next((col for col in ['POP100', 'POP20', 'POP'] if col in gdf.columns), None)`. -/
def popCol (t : Table) : Option String :=
  ["POP100", "POP20", "POP"].find? (fun c => t.hasCol c)

/-- The selection `area_col = next((col for col in ['ALAND'] if col in gdf.columns), None)` —
presence only, no dtype or sum check. -/
def areaCol (t : Table) : Option String :=
  ["ALAND"].find? (fun c => t.hasCol c)

end TP

/-- Sequence a list of fallible cells: `none` anywhere means the pandas
operation raised on the whole column. -/
def seqOpt {α : Type} : List (Option α) → Option (List α)
  | [] => some []
  | o :: t =>
    match o, seqOpt t with
    | some v, some vs => some (v :: vs)
    | _, _ => none

namespace VT

/-- One record of
`(gdf[population_col] / (gdf[area_col] / 1_000_000)).fillna(0)` followed by
`replace([np.inf, -np.inf], 0)`, after `gdf[area_col]` was coerced with
`pd.to_numeric(..., errors='coerce')`.  The population cell is used raw as
a float operand, so a non-numeric string raises (`none`). -/
def densityCell (pop area : Value) : Option FVal :=
  (toNumericRaise pop).map (fun p =>
    ((p.fdiv ((toNumericCoerce area).fdiv (.num 1000000))).fillna0).replaceInf0)

/-- The basic variant's Metric Deriver: density when both columns are
selected, else coerced raw population, else `np.random.seed(42);
np.random.rand(n) * 1000` for a generator `g` mapping seed and count to
the drawn values. -/
def derive (g : ℕ → ℕ → List ℚ) (t : Table) : Option (List FVal) :=
  match populationCol t, areaCol t with
  | some p, some a => seqOpt (List.zipWith densityCell (t.getCol p) (t.getCol a))
  | some p, none => some ((t.getCol p).map (fun v => (toNumericCoerce v).fillna0))
  | none, _ => some ((g 42 t.nrows).map (fun q => FVal.num (q * 1000)))

end VT

/-- Pandas `series.min()` on a nonempty float list (0 on the empty list, which
the scripts never hit with data present). -/
def listMin : List ℝ → ℝ
  | [] => 0
  | a :: t => t.foldl min a

/-- Pandas `series.max()` on a nonempty float list. -/
def listMax : List ℝ → ℝ
  | [] => 0
  | a :: t => t.foldl max a

namespace VT

/-- The basic variant's Height Normalizer:
`((h - min_h) / (max_h - min_h)) ** 1.5 * 100` when `max_h > min_h`, else
the constant 50 for every record. -/
noncomputable def zHeight (hs : List ℝ) : List ℝ :=
  if listMax hs > listMin hs then
    hs.map (fun h => ((h - listMin hs) / (listMax hs - listMin hs)) ^ (1.5 : ℝ) * 100)
  else
    hs.map (fun _ => 50)

/-- Top-level control flow of the basic script: a failed download or a
failed shapefile load prints its diagnostic and exits (modelled as
`Except.error`), producing no artifact; otherwise the metric pipeline
runs (an uncaught pandas exception would also terminate the run). -/
def script (g : ℕ → ℕ → List ℚ) (dl : Except String Unit)
    (ld : Except String Table) : Except String (List FVal) :=
  match dl with
  | .error e => .error e
  | .ok _ =>
    match ld with
    | .error e => .error e
    | .ok t =>
      match derive g t with
      | some m => .ok m
      | none => .error "TypeError"

end VT

namespace TP

/-- One record of
`(pd.to_numeric(gdf[pop_col]) / (pd.to_numeric(gdf[area_col]) / 1_000_000)).fillna(0)`
followed by `replace([np.inf, -np.inf], 0)`; `pd.to_numeric` here uses the
default `errors='raise'`, so a non-numeric string in either column raises. -/
def densityCell (pop area : Value) : Option FVal :=
  match toNumericRaise pop, toNumericRaise area with
  | some p, some a => some (((p.fdiv (a.fdiv (.num 1000000))).fillna0).replaceInf0)
  | _, _ => none

/-- The enhanced variant's Metric Deriver: density when both columns are
selected; else `pd.to_numeric(gdf[pop_col] if pop_col else 0)` — the raw
population converted without coercion and without `fillna` when a
population column exists, and the constant scalar 0 broadcast over all
records when none does. -/
def derive (t : Table) : Option (List FVal) :=
  match popCol t, areaCol t with
  | some p, some a => seqOpt (List.zipWith densityCell (t.getCol p) (t.getCol a))
  | some p, none => seqOpt ((t.getCol p).map toNumericRaise)
  | none, _ => some (List.replicate t.nrows (FVal.num 0))

/-- Embeds `gdf['wave1'] = np.sin(gdf['lon'] * 3) * np.cos(gdf['lat'] * 3) * 0.15`. -/
noncomputable def wave1 (lons lats : List ℝ) : List ℝ :=
  List.zipWith (fun lo la => Real.sin (lo * 3) * Real.cos (la * 3) * 0.15) lons lats

/-- Embeds `gdf['wave2'] = np.sin(gdf['lat'] * 5) * np.cos(gdf['lon'] * 2) * 0.1`. -/
noncomputable def wave2 (lons lats : List ℝ) : List ℝ :=
  List.zipWith (fun lo la => Real.sin (la * 5) * Real.cos (lo * 2) * 0.1) lons lats

/-- Embeds `gdf['wave'] = gdf['wave1'] + gdf['wave2']`. -/
noncomputable def wave (lons lats : List ℝ) : List ℝ :=
  List.zipWith (fun a b => a + b) (wave1 lons lats) (wave2 lons lats)

/-- Embeds `np.random.seed(42); gdf['terrain'] = np.random.beta(2, 5, size=n) * 0.2`
for a generator `beta` mapping seed, the two shape parameters and the
count to the drawn values. -/
def terrain (beta : ℕ → ℕ → ℕ → ℕ → List ℝ) (n : ℕ) : List ℝ :=
  (beta 42 2 5 n).map (fun x => x * 0.2)

/-- Embeds `gdf['height'] = (gdf[value_col] / max_val * 0.85) + gdf['wave'] + gdf['terrain']`. -/
noncomputable def preHeight (vals lons lats terr : List ℝ) : List ℝ :=
  List.zipWith (fun a b => a + b)
    (List.zipWith (fun a b => a + b)
      (vals.map (fun v => v / listMax vals * 0.85)) (wave lons lats))
    terr

/-- The enhanced variant's second normalization pass:
`(h - h.min()) / (h.max() - h.min())` — note: no degenerate-case guard. -/
noncomputable def heightNorm (pre : List ℝ) : List ℝ :=
  pre.map (fun h => (h - listMin pre) / (listMax pre - listMin pre))

/-- The whole enhanced Height Normalizer, metric column to final heights. -/
noncomputable def height (beta : ℕ → ℕ → ℕ → ℕ → List ℝ)
    (vals lons lats : List ℝ) : List ℝ :=
  heightNorm (preHeight vals lons lats (terrain beta vals.length))

end TP

namespace TP

/-- The `generate_colors` HSV ramp for stop `i` of `n`, cool branch when
`i < n/2` (true float division as in the source). -/
def hsvAt (n i : ℕ) : ℚ × ℚ × ℚ :=
  if (i : ℚ) < (n : ℚ) / 2 then
    (7/10 - (i : ℚ) / ((n : ℚ) / 2) * (15/100),
     7/10 + (i : ℚ) / ((n : ℚ) / 2) * (3/10),
     1/2 + (i : ℚ) / ((n : ℚ) / 2) * (1/2))
  else
    (55/100 - ((i : ℚ) - (n : ℚ) / 2) / ((n : ℚ) / 2) * (35/100), 1, 1)

/-- Verbatim `colorsys.hsv_to_rgb`: sector index `int(h*6.0)` (floor for
the non-negative hues used here), fractional part, and the six sector
cases. -/
def hsv_to_rgb (h s v : ℚ) : ℚ × ℚ × ℚ :=
  if s = 0 then (v, v, v)
  else
    let i : ℤ := ⌊h * 6⌋
    let f : ℚ := h * 6 - (i : ℚ)
    let p : ℚ := v * (1 - s)
    let q : ℚ := v * (1 - s * f)
    let t : ℚ := v * (1 - s * (1 - f))
    match (i % 6).toNat with
    | 0 => (v, t, p)
    | 1 => (q, v, p)
    | 2 => (p, v, t)
    | 3 => (p, q, v)
    | 4 => (t, p, v)
    | _ => (q, p, t)

/-- One generated color: `int(r*255), int(g*255), int(b*255)` as an
integer RGB triple (floor, since the components are non-negative). -/
def colorAt (n i : ℕ) : ℤ × ℤ × ℤ :=
  let hsv := hsvAt n i
  let rgb := hsv_to_rgb hsv.1 hsv.2.1 hsv.2.2
  (⌊rgb.1 * 255⌋, ⌊rgb.2.1 * 255⌋, ⌊rgb.2.2 * 255⌋)

/-- The full `generate_colors(n_colors)` output: the ordered list of `n` color stops. -/
def generate_colors (n : ℕ) : List (ℤ × ℤ × ℤ) :=
  (List.range n).map (colorAt n)

end TP

/-! ### Helper lemmas about `listMin` / `listMax` -/

theorem foldl_min_le_init (t : List ℝ) (a : ℝ) : t.foldl min a ≤ a := by
  induction t generalizing a with
  | nil => simp
  | cons b t ih =>
    simpa using le_trans (ih (min a b)) (min_le_left a b)

theorem foldl_min_le_mem (t : List ℝ) (a x : ℝ) (hx : x ∈ t) : t.foldl min a ≤ x := by
  induction t generalizing a with
  | nil => simp at hx
  | cons b t ih =>
    rcases List.mem_cons.mp hx with h | h
    · subst h
      simpa using le_trans (foldl_min_le_init t (min a x)) (min_le_right a x)
    · simpa using ih (min a b) h

theorem listMin_le (hs : List ℝ) (x : ℝ) (hx : x ∈ hs) : listMin hs ≤ x := by
  cases hs with
  | nil => simp at hx
  | cons a t =>
    rcases List.mem_cons.mp hx with h | h
    · subst h; exact foldl_min_le_init t x
    · exact foldl_min_le_mem t a x h

theorem init_le_foldl_max (t : List ℝ) (a : ℝ) : a ≤ t.foldl max a := by
  induction t generalizing a with
  | nil => simp
  | cons b t ih =>
    simpa using le_trans (le_max_left a b) (ih (max a b))

theorem mem_le_foldl_max (t : List ℝ) (a x : ℝ) (hx : x ∈ t) : x ≤ t.foldl max a := by
  induction t generalizing a with
  | nil => simp at hx
  | cons b t ih =>
    rcases List.mem_cons.mp hx with h | h
    · subst h
      simpa using le_trans (le_max_right a x) (init_le_foldl_max t (max a x))
    · simpa using ih (max a b) h

theorem le_listMax (hs : List ℝ) (x : ℝ) (hx : x ∈ hs) : x ≤ listMax hs := by
  cases hs with
  | nil => simp at hx
  | cons a t =>
    rcases List.mem_cons.mp hx with h | h
    · subst h; exact init_le_foldl_max t x
    · exact mem_le_foldl_max t a x h

theorem foldl_min_mem (t : List ℝ) (a : ℝ) : t.foldl min a ∈ a :: t := by
  induction t generalizing a with
  | nil => simp
  | cons b t ih =>
    have h := ih (min a b)
    rcases List.mem_cons.mp h with h' | h'
    · rcases min_choice a b with hm | hm <;> simp [h'.trans hm]
    · simp [List.mem_cons.mpr (Or.inr h')]

theorem listMin_mem (hs : List ℝ) (h : hs ≠ []) : listMin hs ∈ hs := by
  cases hs with
  | nil => exact absurd rfl h
  | cons a t => exact foldl_min_mem t a

theorem foldl_max_mem (t : List ℝ) (a : ℝ) : t.foldl max a ∈ a :: t := by
  induction t generalizing a with
  | nil => simp
  | cons b t ih =>
    have h := ih (max a b)
    rcases List.mem_cons.mp h with h' | h'
    · rcases max_choice a b with hm | hm <;> simp [h'.trans hm]
    · simp [List.mem_cons.mpr (Or.inr h')]

theorem listMax_mem (hs : List ℝ) (h : hs ≠ []) : listMax hs ∈ hs := by
  cases hs with
  | nil => exact absurd rfl h
  | cons a t => exact foldl_max_mem t a

/-- The min-max ratio of a member lies in `[0, 1]` when the range is positive. -/
theorem minmax_ratio_bounds (hs : List ℝ) (x : ℝ) (hx : x ∈ hs)
    (hlt : listMin hs < listMax hs) :
    0 ≤ (x - listMin hs) / (listMax hs - listMin hs) ∧
    (x - listMin hs) / (listMax hs - listMin hs) ≤ 1 := by
  have hpos : 0 < listMax hs - listMin hs := sub_pos.mpr hlt
  constructor
  · exact div_nonneg (sub_nonneg.mpr (listMin_le hs x hx)) (le_of_lt hpos)
  · exact (div_le_one hpos).mpr (sub_le_sub_right (le_listMax hs x hx) _)

/-- C1 (amended).  Basic variant (`visualize_texas.py`): every normalized
height lies in the fixed scaled range `[0, 100]`, and in the degenerate
case where all derived-metric values are equal every height is the
constant fallback 50 (the 0.5 equivalent of the range).  Enhanced variant
(`texas_peaks.py`): when the metric maximum is nonzero and the combined
pre-normalization values are not all equal, every final height lies in
`[0, 1]`; the enhanced variant has no constant fallback for its own
degenerate case (see the counterexample). -/
theorem heightNormalizer_range (hs : List ℝ) (beta : ℕ → ℕ → ℕ → ℕ → List ℝ)
    (vals lons lats : List ℝ) (hmax : listMax vals ≠ 0) :
    (∀ z ∈ VT.zHeight hs, 0 ≤ z ∧ z ≤ 100) ∧
    ((∀ a ∈ hs, ∀ b ∈ hs, a = b) → ∀ z ∈ VT.zHeight hs, z = 50) ∧
    (listMin (TP.preHeight vals lons lats (TP.terrain beta vals.length)) <
       listMax (TP.preHeight vals lons lats (TP.terrain beta vals.length)) →
     ∀ z ∈ TP.height beta vals lons lats, 0 ≤ z ∧ z ≤ 1) := by
  refine ⟨?_, ?_, ?_⟩
  · intro z hz
    unfold VT.zHeight at hz
    by_cases hc : listMax hs > listMin hs
    · rw [if_pos hc] at hz
      obtain ⟨h, hh, rfl⟩ := List.mem_map.mp hz
      have hb := minmax_ratio_bounds hs h hh hc
      have h0 : 0 ≤ ((h - listMin hs) / (listMax hs - listMin hs)) ^ (1.5 : ℝ) :=
        Real.rpow_nonneg hb.1 _
      have h1 : ((h - listMin hs) / (listMax hs - listMin hs)) ^ (1.5 : ℝ) ≤ 1 :=
        Real.rpow_le_one hb.1 hb.2 (by norm_num)
      constructor
      · nlinarith
      · nlinarith
    · rw [if_neg hc] at hz
      obtain ⟨h, hh, rfl⟩ := List.mem_map.mp hz
      norm_num
  · intro heq z hz
    unfold VT.zHeight at hz
    have hc : ¬ (listMax hs > listMin hs) := by
      cases hs with
      | nil => simp [listMax, listMin]
      | cons a t =>
        have h1 : listMin (a :: t) ∈ a :: t := listMin_mem _ (by simp)
        have h2 : listMax (a :: t) ∈ a :: t := listMax_mem _ (by simp)
        have he := heq _ h2 _ h1
        simp [he]
    rw [if_neg hc] at hz
    obtain ⟨h, hh, rfl⟩ := List.mem_map.mp hz
    rfl
  · intro hlt z hz
    unfold TP.height TP.heightNorm at hz
    obtain ⟨h, hh, rfl⟩ := List.mem_map.mp hz
    exact minmax_ratio_bounds _ h hh hlt

/-- C1 witness: the three conclusions at concrete inputs (metric column
`[0, 1]` for the basic variant; one-record metric `[1]`, centroid `(0, 0)`
and a concrete noise draw for the enhanced variant). -/
theorem heightNormalizer_range_witness :
    listMax [(1 : ℝ)] ≠ 0 ∧
    ((∀ z ∈ VT.zHeight [(0 : ℝ), 1], 0 ≤ z ∧ z ≤ 100) ∧
     ((∀ a ∈ ([(0 : ℝ), 1] : List ℝ), ∀ b ∈ ([(0 : ℝ), 1] : List ℝ), a = b) →
       ∀ z ∈ VT.zHeight [(0 : ℝ), 1], z = 50) ∧
     (listMin (TP.preHeight [1] [0] [0] (TP.terrain (fun _ _ _ _ => [0]) [(1 : ℝ)].length)) <
        listMax (TP.preHeight [1] [0] [0] (TP.terrain (fun _ _ _ _ => [0]) [(1 : ℝ)].length)) →
      ∀ z ∈ TP.height (fun _ _ _ _ => [0]) [1] [0] [0], 0 ≤ z ∧ z ≤ 1)) :=
  ⟨by norm_num [listMax],
   heightNormalizer_range [0, 1] (fun _ _ _ _ => [0]) [1] [0] [0]
     (by norm_num [listMax])⟩

/-- C1 counterexample: in the enhanced variant, a two-record table whose
derived-metric values are all equal (both 1, centroids at the origin, a
concrete noise draw) yields final heights `[0, 1]` — two different
values — so the degenerate all-equal-metric case does not map every
height to a constant fallback; there is no guard in the second
normalization pass. -/
theorem heightNormalizer_fallback_counterexample :
    (∀ a ∈ ([1, 1] : List ℝ), ∀ b ∈ ([1, 1] : List ℝ), a = b) ∧
    TP.height (fun _ _ _ _ => [0, 1/2]) [1, 1] [0, 0] [0, 0] = [0, 1] ∧
    ¬ ∃ c : ℝ, ∀ z ∈ TP.height (fun _ _ _ _ => [0, 1/2]) [1, 1] [0, 0] [0, 0], z = c := by
  have hpre : TP.preHeight [1, 1] [0, 0] [0, 0]
      (TP.terrain (fun _ _ _ _ => [0, 1/2]) 2) = [0.85, 0.95] := by
    norm_num [TP.preHeight, TP.wave, TP.wave1, TP.wave2, TP.terrain, listMax, List.zipWith]
  have hh : TP.height (fun _ _ _ _ => [0, 1/2]) [1, 1] [0, 0] [0, 0] = [0, 1] := by
    norm_num [TP.height, hpre, TP.heightNorm, listMin, listMax, List.zipWith]
  refine ⟨by norm_num, hh, ?_⟩
  rintro ⟨c, hc⟩
  have h0 : (0 : ℝ) = c := hc 0 (by rw [hh]; simp)
  have h1 : (1 : ℝ) = c := hc 1 (by rw [hh]; simp)
  rw [← h0] at h1
  norm_num at h1

/-- C10: in the basic variant the height normalization is monotone in the
derived metric — for two records of the same table with non-negative
metrics, if record `i`'s metric is at most record `j`'s, then its
`z_height` is at most record `j`'s (the power-1.5 curve on the min-max
ratio preserves order). -/
theorem zHeight_monotone (hs : List ℝ) (i j : ℕ)
    (hi : i < hs.length) (hj : j < hs.length)
    (hnn : ∀ h ∈ hs, 0 ≤ h) (hij : hs[i] ≤ hs[j]) :
    ∀ (hi2 : i < (VT.zHeight hs).length) (hj2 : j < (VT.zHeight hs).length),
      (VT.zHeight hs)[i] ≤ (VT.zHeight hs)[j] := by
  intro hi2 hj2
  by_cases hc : listMax hs > listMin hs
  · have e : VT.zHeight hs =
        hs.map (fun h => ((h - listMin hs) / (listMax hs - listMin hs)) ^ (1.5 : ℝ) * 100) := by
      simp [VT.zHeight, hc]
    simp only [e, List.getElem_map]
    have h1 := minmax_ratio_bounds hs (hs[i]) (List.getElem_mem hi) hc
    have hle : (hs[i] - listMin hs) / (listMax hs - listMin hs) ≤
        (hs[j] - listMin hs) / (listMax hs - listMin hs) :=
      (div_le_div_iff_of_pos_right (sub_pos.mpr hc)).mpr (sub_le_sub_right hij _)
    have hr := Real.rpow_le_rpow h1.1 hle (by norm_num : (0 : ℝ) ≤ 1.5)
    exact mul_le_mul_of_nonneg_right hr (by norm_num)
  · have e : VT.zHeight hs = hs.map (fun _ => (50 : ℝ)) := by
      simp [VT.zHeight, hc]
    simp only [e, List.getElem_map]
    exact le_refl _

/-- C10 witness: metric column `[0, 100]`, records 0 and 1. -/
theorem zHeight_monotone_witness :
    (∀ h ∈ ([0, 100] : List ℝ), 0 ≤ h) ∧
    (∀ (hi2 : 0 < (VT.zHeight [0, 100]).length) (hj2 : 1 < (VT.zHeight [0, 100]).length),
      (VT.zHeight [0, 100])[0] ≤ (VT.zHeight [0, 100])[1]) :=
  ⟨by norm_num,
   zHeight_monotone [0, 100] 0 1 (by norm_num) (by norm_num) (by norm_num) (by simp)⟩

/-- C2: with a population column and an area column both selected, each
record's derived metric is exactly `population / (area / 1_000_000)`
whenever the record's area is positive, and any non-finite result (area
zero or missing) is replaced with 0 — in both variants. -/
theorem densityCell_spec (p a : ℚ) :
    (0 < a →
      VT.densityCell (.num p) (.num a) = some (.num (p / (a / 1000000))) ∧
      TP.densityCell (.num p) (.num a) = some (.num (p / (a / 1000000)))) ∧
    VT.densityCell (.num p) (.num 0) = some (.num 0) ∧
    TP.densityCell (.num p) (.num 0) = some (.num 0) ∧
    VT.densityCell (.num p) .nan = some (.num 0) ∧
    TP.densityCell (.num p) .nan = some (.num 0) := by
  refine ⟨fun ha => ?_, ?_, ?_, ?_, ?_⟩
  · have ha' : a / 1000000 ≠ 0 := ne_of_gt (div_pos ha (by norm_num))
    constructor <;>
      simp [VT.densityCell, TP.densityCell, toNumericRaise, toNumericCoerce,
            FVal.fdiv, FVal.fillna0, FVal.replaceInf0, ha']
  · rcases lt_trichotomy p 0 with h | h | h
    · simp [VT.densityCell, toNumericRaise, toNumericCoerce, FVal.fdiv,
            FVal.fillna0, FVal.replaceInf0, h.ne, not_lt.mpr h.le]
    · simp [VT.densityCell, toNumericRaise, toNumericCoerce, FVal.fdiv,
            FVal.fillna0, FVal.replaceInf0, h]
    · simp [VT.densityCell, toNumericRaise, toNumericCoerce, FVal.fdiv,
            FVal.fillna0, FVal.replaceInf0, h.ne', h]
  · rcases lt_trichotomy p 0 with h | h | h
    · simp [TP.densityCell, toNumericRaise, toNumericCoerce, FVal.fdiv,
            FVal.fillna0, FVal.replaceInf0, h.ne, not_lt.mpr h.le]
    · simp [TP.densityCell, toNumericRaise, toNumericCoerce, FVal.fdiv,
            FVal.fillna0, FVal.replaceInf0, h]
    · simp [TP.densityCell, toNumericRaise, toNumericCoerce, FVal.fdiv,
            FVal.fillna0, FVal.replaceInf0, h.ne', h]
  · simp [VT.densityCell, toNumericRaise, toNumericCoerce, FVal.fdiv,
          FVal.fillna0, FVal.replaceInf0]
  · simp [TP.densityCell, toNumericRaise, toNumericCoerce, FVal.fdiv,
          FVal.fillna0, FVal.replaceInf0]

/-- C2 witness: population 3, area 2_000_000 (density 1.5 per km²) and the
zero/missing-area cases. -/
theorem densityCell_spec_witness :
    (0 : ℚ) < 2000000 ∧
    ((0 < (2000000 : ℚ) →
       VT.densityCell (.num 3) (.num 2000000) = some (.num (3 / (2000000 / 1000000))) ∧
       TP.densityCell (.num 3) (.num 2000000) = some (.num (3 / (2000000 / 1000000)))) ∧
     VT.densityCell (.num 3) (.num 0) = some (.num 0) ∧
     TP.densityCell (.num 3) (.num 0) = some (.num 0) ∧
     VT.densityCell (.num 3) .nan = some (.num 0) ∧
     TP.densityCell (.num 3) .nan = some (.num 0)) :=
  ⟨by norm_num, densityCell_spec 3 2000000⟩

/-- C3 counterexample: a table holding a `POP` column and an all-zero
`ALAND` column.  The enhanced variant selects `ALAND` by mere presence
even though the column is not valid (its sum is not positive), while the
basic variant rejects it — so it is not true that the Metric Deriver
accepts an area column only if it is valid. -/
theorem areaValidation_counterexample :
    TP.areaCol ⟨1, [("POP", [.num 5]), ("ALAND", [.num 0])]⟩ = some "ALAND" ∧
    ¬(0 < colSum ((⟨1, [("POP", [.num 5]), ("ALAND", [.num 0])]⟩ : Table).getCol "ALAND")) ∧
    VT.areaCol ⟨1, [("POP", [.num 5]), ("ALAND", [.num 0])]⟩ = none := by
  have h : (⟨1, [("POP", [.num 5]), ("ALAND", [.num 0])]⟩ : Table).getCol "ALAND" =
      [.num 0] := rfl
  have hs : colSum ((⟨1, [("POP", [.num 5]), ("ALAND", [.num 0])]⟩ : Table).getCol "ALAND") =
      0 := by rw [h]; norm_num [colSum]
  refine ⟨rfl, ?_, ?_⟩
  · rw [hs]; norm_num
  · simp [VT.areaCol, VT.potentialAreaCols, List.find?, hs]

/-- C3 (amended): both variants select the population and area column as
the first candidate of their fixed ordered lists present in the table
(exact, case-sensitive match), and the choice is a function of the table
alone, applied uniformly; but only the basic variant additionally
requires the area column to be valid (numeric dtype, positive sum) — the
enhanced variant accepts `ALAND` by presence alone. -/
theorem columnSelection_spec (t : Table) :
    (∀ c, VT.populationCol t = some c ↔
      (c = "POP" ∧ t.hasCol "POP") ∨
      (c = "POP100" ∧ ¬t.hasCol "POP" ∧ t.hasCol "POP100") ∨
      (c = "POP20" ∧ ¬t.hasCol "POP" ∧ ¬t.hasCol "POP100" ∧ t.hasCol "POP20")) ∧
    (∀ c, TP.popCol t = some c ↔
      (c = "POP100" ∧ t.hasCol "POP100") ∨
      (c = "POP20" ∧ ¬t.hasCol "POP100" ∧ t.hasCol "POP20") ∨
      (c = "POP" ∧ ¬t.hasCol "POP100" ∧ ¬t.hasCol "POP20" ∧ t.hasCol "POP")) ∧
    (∀ c, VT.areaCol t = some c ↔
      c = "ALAND" ∧ t.hasCol "ALAND" ∧ isNumericDtype (t.getCol "ALAND") ∧
        0 < colSum (t.getCol "ALAND")) ∧
    (∀ c, TP.areaCol t = some c ↔ c = "ALAND" ∧ t.hasCol "ALAND") := by
  refine ⟨fun c => ?_, fun c => ?_, fun c => ?_, fun c => ?_⟩
  · by_cases h1 : t.hasCol "POP" <;> by_cases h2 : t.hasCol "POP100" <;>
      by_cases h3 : t.hasCol "POP20" <;>
      simp [VT.populationCol, VT.potentialPopCols, List.find?, h1, h2, h3, eq_comm]
  · by_cases h1 : t.hasCol "POP100" <;> by_cases h2 : t.hasCol "POP20" <;>
      by_cases h3 : t.hasCol "POP" <;>
      simp [TP.popCol, List.find?, h1, h2, h3, eq_comm]
  · by_cases h1 : t.hasCol "ALAND" <;>
      by_cases h2 : isNumericDtype (t.getCol "ALAND") <;>
      by_cases h3 : 0 < colSum (t.getCol "ALAND") <;>
      simp [VT.areaCol, VT.potentialAreaCols, List.find?, h1, h2, h3, eq_comm]
  · by_cases h1 : t.hasCol "ALAND" <;>
      simp [TP.areaCol, List.find?, h1, eq_comm]

/-- C3 witness: on the counterexample table the basic variant picks `POP`
for population and no area column; the enhanced variant picks `ALAND`. -/
theorem columnSelection_spec_witness :
    (VT.populationCol ⟨1, [("POP", [.num 5]), ("ALAND", [.num 0])]⟩ = some "POP" ↔
      ("POP" = "POP" ∧
        (⟨1, [("POP", [.num 5]), ("ALAND", [.num 0])]⟩ : Table).hasCol "POP") ∨
      ("POP" = "POP100" ∧
        ¬(⟨1, [("POP", [.num 5]), ("ALAND", [.num 0])]⟩ : Table).hasCol "POP" ∧
        (⟨1, [("POP", [.num 5]), ("ALAND", [.num 0])]⟩ : Table).hasCol "POP100") ∨
      ("POP" = "POP20" ∧
        ¬(⟨1, [("POP", [.num 5]), ("ALAND", [.num 0])]⟩ : Table).hasCol "POP" ∧
        ¬(⟨1, [("POP", [.num 5]), ("ALAND", [.num 0])]⟩ : Table).hasCol "POP100" ∧
        (⟨1, [("POP", [.num 5]), ("ALAND", [.num 0])]⟩ : Table).hasCol "POP20")) :=
  (columnSelection_spec ⟨1, [("POP", [.num 5]), ("ALAND", [.num 0])]⟩).1 "POP"

/-- C4 (amended): when no candidate population column is present, the
basic variant assigns each record the seed-42 generator's draw scaled by
1000 — one value per record when the generator yields one draw per record
— and the output is a function of the generator and table only, hence
identical across repeated runs; the enhanced variant instead assigns the
constant 0 to every record. -/
theorem syntheticFallback_spec (g : ℕ → ℕ → List ℚ) (t : Table)
    (hpop : VT.populationCol t = none) :
    VT.derive g t = some ((g 42 t.nrows).map (fun q => FVal.num (q * 1000))) ∧
    ((g 42 t.nrows).length = t.nrows →
      ∃ l, VT.derive g t = some l ∧ l.length = t.nrows) ∧
    (TP.popCol t = none → TP.derive t = some (List.replicate t.nrows (FVal.num 0))) := by
  have h1 : VT.derive g t = some ((g 42 t.nrows).map (fun q => FVal.num (q * 1000))) := by
    cases h : VT.areaCol t <;> simp [VT.derive, hpop, h]
  refine ⟨h1, fun hlen => ⟨_, h1, by simp [hlen]⟩, fun htp => ?_⟩
  cases h : TP.areaCol t <;> simp [TP.derive, htp, h]

/-- C4 witness: a two-row table with no population candidate, and a
generator drawing `[1/4, 3/4]`. -/
theorem syntheticFallback_spec_witness :
    VT.populationCol ⟨2, [("GEOID", [.str "a", .str "b"])]⟩ = none ∧
    VT.derive (fun _ _ => [1/4, 3/4]) ⟨2, [("GEOID", [.str "a", .str "b"])]⟩ =
      some (((fun (_ _ : ℕ) => [(1 : ℚ)/4, 3/4]) 42
          (⟨2, [("GEOID", [.str "a", .str "b"])]⟩ : Table).nrows).map
        (fun q => FVal.num (q * 1000))) :=
  ⟨rfl, (syntheticFallback_spec (fun _ _ => [1/4, 3/4])
    ⟨2, [("GEOID", [.str "a", .str "b"])]⟩ rfl).1⟩

/-- C4 counterexample: on a population-less table the enhanced variant's
fallback metric is the constant 0 for every record — not the seed-42
pseudo-random draws: with a generator drawing `[1/4, 3/4]` the claimed
values would be `[250, 750]`, which the basic variant produces and the
enhanced variant does not. -/
theorem syntheticFallback_counterexample :
    TP.popCol ⟨2, [("GEOID", [.str "a", .str "b"])]⟩ = none ∧
    TP.derive ⟨2, [("GEOID", [.str "a", .str "b"])]⟩ = some [FVal.num 0, FVal.num 0] ∧
    VT.derive (fun _ _ => [1/4, 3/4]) ⟨2, [("GEOID", [.str "a", .str "b"])]⟩ =
      some [FVal.num 250, FVal.num 750] ∧
    (some [FVal.num 0, FVal.num 0] : Option (List FVal)) ≠
      some [FVal.num 250, FVal.num 750] := by
  refine ⟨rfl, rfl, ?_, by simp⟩
  have h : VT.derive (fun _ _ => [1/4, 3/4]) ⟨2, [("GEOID", [.str "a", .str "b"])]⟩ =
      some (([(1 : ℚ)/4, 3/4]).map (fun q => FVal.num (q * 1000))) := rfl
  rw [h]
  norm_num

/-- C6 (amended): with a population column selected and no valid area
column, the basic variant sets each record's metric to the population
value coerced to numeric with non-numeric/missing coerced to 0; the
enhanced variant instead converts without coercion — a missing value
stays NaN and a non-numeric value raises. -/
theorem rawPopulation_spec (g : ℕ → ℕ → List ℚ) (t : Table) (p : String)
    (hp : VT.populationCol t = some p) (ha : VT.areaCol t = none) :
    VT.derive g t = some ((t.getCol p).map (fun v => (toNumericCoerce v).fillna0)) ∧
    (∀ q : ℚ, (toNumericCoerce (.num q)).fillna0 = FVal.num q) ∧
    (toNumericCoerce .nan).fillna0 = FVal.num 0 ∧
    (∀ s, (toNumericCoerce (.str s)).fillna0 = FVal.num 0) ∧
    (∀ c, TP.popCol t = some c → TP.areaCol t = none →
      TP.derive t = seqOpt ((t.getCol c).map toNumericRaise)) ∧
    toNumericRaise .nan = some FVal.nan ∧
    (∀ s, toNumericRaise (.str s) = none) := by
  refine ⟨by simp [VT.derive, hp, ha], fun q => rfl, rfl, fun s => rfl,
    fun c hc hac => by simp [TP.derive, hc, hac], rfl, fun s => rfl⟩

/-- C6 witness: a table whose `POP` column holds the single value 7. -/
theorem rawPopulation_spec_witness :
    VT.populationCol ⟨1, [("POP", [.num 7])]⟩ = some "POP" ∧
    VT.areaCol ⟨1, [("POP", [.num 7])]⟩ = none ∧
    VT.derive (fun _ _ => []) ⟨1, [("POP", [.num 7])]⟩ =
      some (((⟨1, [("POP", [.num 7])]⟩ : Table).getCol "POP").map
        (fun v => (toNumericCoerce v).fillna0)) :=
  ⟨rfl, rfl,
   (rawPopulation_spec (fun _ _ => []) ⟨1, [("POP", [.num 7])]⟩ "POP" rfl rfl).1⟩

/-- C6 counterexample: a table whose population column holds one missing
value.  The enhanced variant's derived metric for that record is NaN, not
the 0 that the claim's coercion rule prescribes; and a non-numeric string
raises instead of coercing. -/
theorem rawPopulation_counterexample :
    TP.popCol ⟨1, [("POP", [Value.nan])]⟩ = some "POP" ∧
    TP.areaCol ⟨1, [("POP", [Value.nan])]⟩ = none ∧
    TP.derive ⟨1, [("POP", [Value.nan])]⟩ = some [FVal.nan] ∧
    (some [FVal.nan] : Option (List FVal)) ≠ some [FVal.num 0] ∧
    TP.derive ⟨1, [("POP", [Value.str "x"])]⟩ = none := by
  exact ⟨rfl, rfl, rfl, by simp, rfl⟩

/-! ### Pointwise lemmas for numpy-style column arithmetic -/

theorem zipWith_getD (f : ℝ → ℝ → ℝ) (l1 l2 : List ℝ) (i : ℕ)
    (h1 : i < l1.length) (h2 : i < l2.length) :
    (List.zipWith f l1 l2).getD i 0 = f (l1.getD i 0) (l2.getD i 0) := by
  have hz : i < (List.zipWith f l1 l2).length := by
    rw [List.length_zipWith]; omega
  rw [List.getD_eq_getElem _ _ hz, List.getD_eq_getElem _ _ h1,
    List.getD_eq_getElem _ _ h2]
  exact List.getElem_zipWith ..

theorem map_getD (f : ℝ → ℝ) (l : List ℝ) (i : ℕ) (h : i < l.length) :
    (l.map f).getD i 0 = f (l.getD i 0) := by
  have hm : i < (l.map f).length := by simpa using h
  rw [List.getD_eq_getElem _ _ hm, List.getD_eq_getElem _ _ h]
  exact List.getElem_map ..

/-- C5: in the enhanced variant, record `i`'s pre-normalization height is
`(metric / max(metric) × 0.85) + wave(lon, lat) + terrain_noise`, where
the wave is the fixed two-term sinusoid of the centroid coordinates and
the terrain noise is the seed-42 Beta(2, 5) draw scaled by 0.2; the final
height is the second min-max pass over the whole table, which maps the
combined values into `[0, 1]` whenever they are not all equal. -/
theorem enhancedHeight_spec (beta : ℕ → ℕ → ℕ → ℕ → List ℝ)
    (vals lons lats : List ℝ) (n i : ℕ)
    (hv : vals.length = n) (hlo : lons.length = n) (hla : lats.length = n)
    (hb : (beta 42 2 5 n).length = n) (hmax : listMax vals ≠ 0) (hi : i < n) :
    (TP.preHeight vals lons lats (TP.terrain beta vals.length)).getD i 0 =
      vals.getD i 0 / listMax vals * 0.85 +
      (Real.sin (lons.getD i 0 * 3) * Real.cos (lats.getD i 0 * 3) * 0.15 +
       Real.sin (lats.getD i 0 * 5) * Real.cos (lons.getD i 0 * 2) * 0.1) +
      (beta 42 2 5 n).getD i 0 * 0.2 ∧
    (TP.height beta vals lons lats).getD i 0 =
      ((TP.preHeight vals lons lats (TP.terrain beta vals.length)).getD i 0 -
         listMin (TP.preHeight vals lons lats (TP.terrain beta vals.length))) /
        (listMax (TP.preHeight vals lons lats (TP.terrain beta vals.length)) -
         listMin (TP.preHeight vals lons lats (TP.terrain beta vals.length))) ∧
    (listMin (TP.preHeight vals lons lats (TP.terrain beta vals.length)) <
       listMax (TP.preHeight vals lons lats (TP.terrain beta vals.length)) →
      0 ≤ (TP.height beta vals lons lats).getD i 0 ∧
      (TP.height beta vals lons lats).getD i 0 ≤ 1) := by
  subst hv
  have hw1 : (TP.wave1 lons lats).length = vals.length := by
    simp [TP.wave1, hlo, hla]
  have hw2 : (TP.wave2 lons lats).length = vals.length := by
    simp [TP.wave2, hlo, hla]
  have hw : (TP.wave lons lats).length = vals.length := by
    simp [TP.wave, hw1, hw2]
  have ht : (TP.terrain beta vals.length).length = vals.length := by
    simp [TP.terrain, hb]
  have hvm : (vals.map (fun v => v / listMax vals * 0.85)).length = vals.length := by
    simp
  have hin : (List.zipWith (fun a b => a + b)
      (vals.map (fun v => v / listMax vals * 0.85)) (TP.wave lons lats)).length =
      vals.length := by
    rw [List.length_zipWith, hw, hvm, min_self]
  have hpre : (TP.preHeight vals lons lats (TP.terrain beta vals.length)).length =
      vals.length := by
    rw [TP.preHeight, List.length_zipWith, hin, ht, min_self]
  have part1 : (TP.preHeight vals lons lats (TP.terrain beta vals.length)).getD i 0 =
      vals.getD i 0 / listMax vals * 0.85 +
      (Real.sin (lons.getD i 0 * 3) * Real.cos (lats.getD i 0 * 3) * 0.15 +
       Real.sin (lats.getD i 0 * 5) * Real.cos (lons.getD i 0 * 2) * 0.1) +
      (beta 42 2 5 vals.length).getD i 0 * 0.2 := by
    rw [TP.preHeight, zipWith_getD _ _ _ i (by omega) (by omega),
      zipWith_getD _ _ _ i (by omega) (by omega),
      map_getD _ _ i (by omega)]
    rw [TP.wave, zipWith_getD _ _ _ i (by omega) (by omega)]
    rw [TP.wave1, zipWith_getD _ _ _ i (by omega) (by omega)]
    rw [TP.wave2, zipWith_getD _ _ _ i (by omega) (by omega)]
    rw [TP.terrain, map_getD _ _ i (by omega)]
  have part2 : (TP.height beta vals lons lats).getD i 0 =
      ((TP.preHeight vals lons lats (TP.terrain beta vals.length)).getD i 0 -
         listMin (TP.preHeight vals lons lats (TP.terrain beta vals.length))) /
        (listMax (TP.preHeight vals lons lats (TP.terrain beta vals.length)) -
         listMin (TP.preHeight vals lons lats (TP.terrain beta vals.length))) := by
    rw [TP.height, TP.heightNorm, map_getD _ _ i (by omega)]
  refine ⟨part1, part2, fun hlt => ?_⟩
  rw [part2]
  have hmem : (TP.preHeight vals lons lats (TP.terrain beta vals.length)).getD i 0 ∈
      TP.preHeight vals lons lats (TP.terrain beta vals.length) := by
    rw [List.getD_eq_getElem _ _ (by omega)]
    exact List.getElem_mem _
  exact minmax_ratio_bounds _ _ hmem hlt

/-- C5 witness: two records with metrics `[1, 2]`, centroids at the
origin and a zero noise draw, record 0. -/
theorem enhancedHeight_spec_witness :
    ([(1 : ℝ), 2].length = 2 ∧ [(0 : ℝ), 0].length = 2 ∧
     ((fun (_ _ _ _ : ℕ) => ([0, 0] : List ℝ)) 42 2 5 2).length = 2 ∧
     listMax [(1 : ℝ), 2] ≠ 0 ∧ 0 < 2) ∧
    ((TP.preHeight [1, 2] [0, 0] [0, 0]
        (TP.terrain (fun _ _ _ _ => [0, 0]) [(1 : ℝ), 2].length)).getD 0 0 =
      ([(1 : ℝ), 2]).getD 0 0 / listMax [(1 : ℝ), 2] * 0.85 +
      (Real.sin (([(0 : ℝ), 0]).getD 0 0 * 3) * Real.cos (([(0 : ℝ), 0]).getD 0 0 * 3) * 0.15 +
       Real.sin (([(0 : ℝ), 0]).getD 0 0 * 5) * Real.cos (([(0 : ℝ), 0]).getD 0 0 * 2) * 0.1) +
      ((fun (_ _ _ _ : ℕ) => ([0, 0] : List ℝ)) 42 2 5 2).getD 0 0 * 0.2 ∧
     (TP.height (fun _ _ _ _ => [0, 0]) [1, 2] [0, 0] [0, 0]).getD 0 0 =
      ((TP.preHeight [1, 2] [0, 0] [0, 0]
          (TP.terrain (fun _ _ _ _ => [0, 0]) [(1 : ℝ), 2].length)).getD 0 0 -
         listMin (TP.preHeight [1, 2] [0, 0] [0, 0]
           (TP.terrain (fun _ _ _ _ => [0, 0]) [(1 : ℝ), 2].length))) /
        (listMax (TP.preHeight [1, 2] [0, 0] [0, 0]
           (TP.terrain (fun _ _ _ _ => [0, 0]) [(1 : ℝ), 2].length)) -
         listMin (TP.preHeight [1, 2] [0, 0] [0, 0]
           (TP.terrain (fun _ _ _ _ => [0, 0]) [(1 : ℝ), 2].length))) ∧
     (listMin (TP.preHeight [1, 2] [0, 0] [0, 0]
         (TP.terrain (fun _ _ _ _ => [0, 0]) [(1 : ℝ), 2].length)) <
        listMax (TP.preHeight [1, 2] [0, 0] [0, 0]
          (TP.terrain (fun _ _ _ _ => [0, 0]) [(1 : ℝ), 2].length)) →
       0 ≤ (TP.height (fun _ _ _ _ => [0, 0]) [1, 2] [0, 0] [0, 0]).getD 0 0 ∧
       (TP.height (fun _ _ _ _ => [0, 0]) [1, 2] [0, 0] [0, 0]).getD 0 0 ≤ 1)) :=
  ⟨⟨rfl, rfl, rfl, by norm_num [listMax, max_def], by norm_num⟩,
   enhancedHeight_spec (fun _ _ _ _ => [0, 0]) [1, 2] [0, 0] [0, 0] 2 0
     rfl rfl rfl rfl (by norm_num [listMax, max_def]) (by norm_num)⟩

/-- C7: both variants are deterministic — the derived metrics and heights
are functions of the input table, the metric/height columns and the
seeded generators alone, so two runs with equal inputs and equal seeded
generators produce identical values for every record. -/
theorem pipeline_deterministic (g1 g2 : ℕ → ℕ → List ℚ)
    (b1 b2 : ℕ → ℕ → ℕ → ℕ → List ℝ) (t1 t2 : Table)
    (hs1 hs2 v1 v2 lo1 lo2 la1 la2 : List ℝ)
    (hg : g1 = g2) (hb : b1 = b2) (ht : t1 = t2) (hh : hs1 = hs2)
    (hv : v1 = v2) (hlo : lo1 = lo2) (hla : la1 = la2) :
    VT.derive g1 t1 = VT.derive g2 t2 ∧
    VT.zHeight hs1 = VT.zHeight hs2 ∧
    TP.derive t1 = TP.derive t2 ∧
    TP.height b1 v1 lo1 la1 = TP.height b2 v2 lo2 la2 := by
  subst hg; subst hb; subst ht; subst hh; subst hv; subst hlo; subst hla
  exact ⟨rfl, rfl, rfl, rfl⟩

/-- C7 witness: two identical runs on a one-record table. -/
theorem pipeline_deterministic_witness :
    VT.derive (fun _ _ => [1/2]) ⟨1, [("POP", [.num 7])]⟩ =
      VT.derive (fun _ _ => [1/2]) ⟨1, [("POP", [.num 7])]⟩ ∧
    VT.zHeight [0, 1] = VT.zHeight [0, 1] ∧
    TP.derive ⟨1, [("POP", [.num 7])]⟩ = TP.derive ⟨1, [("POP", [.num 7])]⟩ ∧
    TP.height (fun _ _ _ _ => [0]) [1] [0] [0] =
      TP.height (fun _ _ _ _ => [0]) [1] [0] [0] :=
  pipeline_deterministic (fun _ _ => [1/2]) (fun _ _ => [1/2])
    (fun _ _ _ _ => [0]) (fun _ _ _ _ => [0])
    ⟨1, [("POP", [.num 7])]⟩ ⟨1, [("POP", [.num 7])]⟩
    [0, 1] [0, 1] [1] [1] [0] [0] [0] [0] rfl rfl rfl rfl rfl rfl rfl

/-- C9: an unrecoverable acquisition failure or load failure makes the
basic script stop with that diagnostic and produce no artifact, while a
missing population or area column never terminates the run — it takes the
fallback chain — and numeric edge cases (zero or missing area) are
replaced by 0 rather than raising. -/
theorem errorHandling_spec (g : ℕ → ℕ → List ℚ) :
    (∀ (e : String) (ld : Except String Table), VT.script g (.error e) ld = .error e) ∧
    (∀ e : String, VT.script g (.ok ()) (.error e) = .error e) ∧
    (∀ t : Table, VT.populationCol t = none →
      VT.script g (.ok ()) (.ok t) =
        .ok ((g 42 t.nrows).map (fun q => FVal.num (q * 1000)))) ∧
    (∀ (t : Table) (p : String), VT.populationCol t = some p → VT.areaCol t = none →
      VT.script g (.ok ()) (.ok t) =
        .ok ((t.getCol p).map (fun v => (toNumericCoerce v).fillna0))) ∧
    (∀ p : ℚ, VT.densityCell (.num p) (.num 0) = some (.num 0) ∧
      VT.densityCell (.num p) .nan = some (.num 0)) := by
  refine ⟨fun e ld => rfl, fun e => rfl, fun t h => ?_, fun t p hp ha => ?_, fun p => ?_⟩
  · have hd : VT.derive g t = some ((g 42 t.nrows).map (fun q => FVal.num (q * 1000))) := by
      cases h' : VT.areaCol t <;> simp [VT.derive, h, h']
    simp [VT.script, hd]
  · have hd : VT.derive g t =
        some ((t.getCol p).map (fun v => (toNumericCoerce v).fillna0)) := by
      simp [VT.derive, hp, ha]
    simp [VT.script, hd]
  · constructor
    · rcases lt_trichotomy p 0 with h | h | h
      · simp [VT.densityCell, toNumericRaise, toNumericCoerce, FVal.fdiv,
              FVal.fillna0, FVal.replaceInf0, h.ne, not_lt.mpr h.le]
      · simp [VT.densityCell, toNumericRaise, toNumericCoerce, FVal.fdiv,
              FVal.fillna0, FVal.replaceInf0, h]
      · simp [VT.densityCell, toNumericRaise, toNumericCoerce, FVal.fdiv,
              FVal.fillna0, FVal.replaceInf0, h.ne', h]
    · simp [VT.densityCell, toNumericRaise, toNumericCoerce, FVal.fdiv,
            FVal.fillna0, FVal.replaceInf0]

/-- C9 witness: a failed download with diagnostic `network error`, a
failed load with diagnostic `parse error`, and the fallback paths on
concrete tables. -/
theorem errorHandling_spec_witness :
    VT.script (fun _ _ => [1/2]) (.error "network error") (.ok ⟨0, []⟩) =
      .error "network error" ∧
    VT.script (fun _ _ => [1/2]) (.ok ()) (.error "parse error") =
      .error "parse error" ∧
    VT.script (fun _ _ => [1/2]) (.ok ()) (.ok ⟨1, [("GEOID", [.str "a"])]⟩) =
      .ok (((fun (_ _ : ℕ) => [(1 : ℚ)/2]) 42
          (⟨1, [("GEOID", [.str "a"])]⟩ : Table).nrows).map
        (fun q => FVal.num (q * 1000))) ∧
    VT.densityCell (.num 3) (.num 0) = some (.num 0) := by
  have h := errorHandling_spec (fun _ _ => [1/2])
  exact ⟨h.1 "network error" (.ok ⟨0, []⟩), h.2.1 "parse error",
    h.2.2.1 ⟨1, [("GEOID", [.str "a"])]⟩ rfl, (h.2.2.2.2 3).1⟩

/-! ### Bounds for the palette generator -/

/-- Conversion `colorsys.hsv_to_rgb` keeps its components in `[0, 1]` whenever
saturation and value are in `[0, 1]`. -/
theorem hsv_to_rgb_mem (h s v : ℚ) (hs0 : 0 ≤ s) (hs1 : s ≤ 1)
    (hv0 : 0 ≤ v) (hv1 : v ≤ 1) :
    (0 ≤ (TP.hsv_to_rgb h s v).1 ∧ (TP.hsv_to_rgb h s v).1 ≤ 1) ∧
    (0 ≤ (TP.hsv_to_rgb h s v).2.1 ∧ (TP.hsv_to_rgb h s v).2.1 ≤ 1) ∧
    (0 ≤ (TP.hsv_to_rgb h s v).2.2 ∧ (TP.hsv_to_rgb h s v).2.2 ≤ 1) := by
  unfold TP.hsv_to_rgb
  by_cases hs : s = 0
  · rw [if_pos hs]
    exact ⟨⟨hv0, hv1⟩, ⟨hv0, hv1⟩, ⟨hv0, hv1⟩⟩
  · rw [if_neg hs]
    have hf0 : 0 ≤ h * 6 - (⌊h * 6⌋ : ℚ) := sub_nonneg.mpr (Int.floor_le _)
    have hf1 : h * 6 - (⌊h * 6⌋ : ℚ) ≤ 1 := by
      have := Int.lt_floor_add_one (h * 6)
      linarith
    have hp0 : 0 ≤ v * (1 - s) := mul_nonneg hv0 (by linarith)
    have hp1 : v * (1 - s) ≤ 1 := by nlinarith
    have hq0 : 0 ≤ v * (1 - s * (h * 6 - (⌊h * 6⌋ : ℚ))) := by nlinarith
    have hq1 : v * (1 - s * (h * 6 - (⌊h * 6⌋ : ℚ))) ≤ 1 := by nlinarith
    have ht0 : 0 ≤ v * (1 - s * (1 - (h * 6 - (⌊h * 6⌋ : ℚ)))) := by nlinarith
    have ht1 : v * (1 - s * (1 - (h * 6 - (⌊h * 6⌋ : ℚ)))) ≤ 1 := by nlinarith
    dsimp only
    generalize (⌊h * 6⌋ % 6).toNat = k
    rcases k with _ | _ | _ | _ | _ | k
    · exact ⟨⟨hv0, hv1⟩, ⟨ht0, ht1⟩, ⟨hp0, hp1⟩⟩
    · exact ⟨⟨hq0, hq1⟩, ⟨hv0, hv1⟩, ⟨hp0, hp1⟩⟩
    · exact ⟨⟨hp0, hp1⟩, ⟨hv0, hv1⟩, ⟨ht0, ht1⟩⟩
    · exact ⟨⟨hp0, hp1⟩, ⟨hq0, hq1⟩, ⟨hv0, hv1⟩⟩
    · exact ⟨⟨ht0, ht1⟩, ⟨hp0, hp1⟩, ⟨hv0, hv1⟩⟩
    · exact ⟨⟨hq0, hq1⟩, ⟨hp0, hp1⟩, ⟨ht0, ht1⟩⟩

/-- The HSV ramp of `generate_colors` stays in range: hue in `[0, 1)`,
saturation and value in `[0, 1]`, for every stop index below `n`. -/
theorem hsvAt_bounds (n i : ℕ) (hi : i < n) :
    0 ≤ (TP.hsvAt n i).1 ∧ (TP.hsvAt n i).1 < 1 ∧
    0 ≤ (TP.hsvAt n i).2.1 ∧ (TP.hsvAt n i).2.1 ≤ 1 ∧
    0 ≤ (TP.hsvAt n i).2.2 ∧ (TP.hsvAt n i).2.2 ≤ 1 := by
  unfold TP.hsvAt
  by_cases hc : (i : ℚ) < (n : ℚ) / 2
  · rw [if_pos hc]
    dsimp only
    have hn2 : 0 < (n : ℚ) / 2 := lt_of_le_of_lt (Nat.cast_nonneg i) hc
    have hr0 : 0 ≤ (i : ℚ) / ((n : ℚ) / 2) := div_nonneg (Nat.cast_nonneg i) hn2.le
    have hr1 : (i : ℚ) / ((n : ℚ) / 2) < 1 := (div_lt_one hn2).mpr hc
    refine ⟨by nlinarith, by nlinarith, by nlinarith, by nlinarith, by nlinarith,
      by nlinarith⟩
  · rw [if_neg hc]
    dsimp only
    push_neg at hc
    have hn1 : (1 : ℚ) ≤ (n : ℚ) := by
      have : 1 ≤ n := Nat.one_le_iff_ne_zero.mpr (by omega)
      exact_mod_cast this
    have hn2 : 0 < (n : ℚ) / 2 := by linarith
    have hr0 : 0 ≤ ((i : ℚ) - (n : ℚ) / 2) / ((n : ℚ) / 2) :=
      div_nonneg (by linarith) hn2.le
    have hr1 : ((i : ℚ) - (n : ℚ) / 2) / ((n : ℚ) / 2) < 1 := by
      apply (div_lt_one hn2).mpr
      have hin : (i : ℚ) < (n : ℚ) := by exact_mod_cast hi
      linarith
    refine ⟨by nlinarith, by nlinarith, by norm_num, by norm_num, by norm_num,
      by norm_num⟩

/-- Each generated color stop is a valid RGB triple: every integer
component lies in `[0, 255]`. -/
theorem colorAt_bounds (n i : ℕ) (hi : i < n) :
    0 ≤ (TP.colorAt n i).1 ∧ (TP.colorAt n i).1 ≤ 255 ∧
    0 ≤ (TP.colorAt n i).2.1 ∧ (TP.colorAt n i).2.1 ≤ 255 ∧
    0 ≤ (TP.colorAt n i).2.2 ∧ (TP.colorAt n i).2.2 ≤ 255 := by
  obtain ⟨h0, h1, hs0, hs1, hv0, hv1⟩ := hsvAt_bounds n i hi
  obtain ⟨⟨r0, r1⟩, ⟨g0, g1⟩, ⟨b0, b1⟩⟩ :=
    hsv_to_rgb_mem (TP.hsvAt n i).1 (TP.hsvAt n i).2.1 (TP.hsvAt n i).2.2
      hs0 hs1 hv0 hv1
  unfold TP.colorAt
  dsimp only
  have flo : ∀ x : ℚ, 0 ≤ x → x ≤ 1 → 0 ≤ ⌊x * 255⌋ ∧ ⌊x * 255⌋ ≤ 255 := by
    intro x hx0 hx1
    constructor
    · exact Int.floor_nonneg.mpr (by nlinarith)
    · calc ⌊x * 255⌋ ≤ ⌊(255 : ℚ)⌋ := Int.floor_le_floor (by nlinarith)
        _ = 255 := by norm_num
  obtain ⟨a0, a1⟩ := flo _ r0 r1
  obtain ⟨c0, c1⟩ := flo _ g0 g1
  obtain ⟨d0, d1⟩ := flo _ b0 b1
  exact ⟨a0, a1, c0, c1, d0, d1⟩

/-- C8: `generate_colors` is a pure function of the stop count; at
`N = 150` it yields exactly 150 colors, each component of every stop is an
integer in `[0, 255]`, and the first stop's hue (0.7) is in the cool
(blue/purple) half of the hue wheel while the last stop's hue is in the
warm half — the two ends differ in hue category. -/
theorem generate_colors_spec :
    (TP.generate_colors 150).length = 150 ∧
    (∀ c ∈ TP.generate_colors 150,
      0 ≤ c.1 ∧ c.1 ≤ 255 ∧ 0 ≤ c.2.1 ∧ c.2.1 ≤ 255 ∧ 0 ≤ c.2.2 ∧ c.2.2 ≤ 255) ∧
    1/2 < (TP.hsvAt 150 0).1 ∧ (TP.hsvAt 150 149).1 < 1/2 := by
  refine ⟨by simp [TP.generate_colors], ?_, ?_, ?_⟩
  · intro c hc
    obtain ⟨i, hi, rfl⟩ := List.mem_map.mp hc
    exact colorAt_bounds 150 i (List.mem_range.mp hi)
  · norm_num [TP.hsvAt]
  · norm_num [TP.hsvAt]

/-- C8 witness: the first generated stop is a member and its components
are in range. -/
theorem generate_colors_spec_witness :
    0 ≤ (TP.colorAt 150 0).1 ∧ (TP.colorAt 150 0).1 ≤ 255 ∧
    0 ≤ (TP.colorAt 150 0).2.1 ∧ (TP.colorAt 150 0).2.1 ≤ 255 ∧
    0 ≤ (TP.colorAt 150 0).2.2 ∧ (TP.colorAt 150 0).2.2 ≤ 255 :=
  generate_colors_spec.2.1 (TP.colorAt 150 0)
    (List.mem_map.mpr ⟨0, List.mem_range.mpr (by norm_num), rfl⟩)
